import Mathlib

/-!
# Verification of the aocgen multi-language solution evaluator

Shallow embedding of the evaluator core of `src/main.go` (the Runtime
Registry `getFileExtension`, the Process Runner / Orchestrator
`evaluateSolution` and `runEvaluationCommand`, and the Outcome Judge
`validSolution`), together with the older combined-buffer variant of
`evaluateSolution` found in `src/unnamed/part_003`.

Go strings are modelled as Lean `String`; `strings.Contains` is modelled
via contiguous-sublist containment (`List.IsInfix`) on the character
lists. Process execution is abstracted into a `RunResult` record holding
exactly the observations the Go code inspects after `cmd.Run()`:
whether `Run` returned an error, whether the context deadline was
exceeded, and the contents of the stdout/stderr capture buffers.
-/

/-- Go `strings.Contains s substr`: `substr` occurs as a contiguous
substring of `s`. -/
def stringsContains (s substr : String) : Bool :=
  decide (substr.data <:+: s.data)

/-- The `Challenge` record of `src/main.go` (JSON fields omitted). -/
structure Challenge where
  name : String
  solution : String
  input : String
  task : String
  solutionLang : String
  year : Int
  answer : String
deriving DecidableEq, Repr

/-- The CLI `Flags` record of `src/main.go`. -/
structure Flags where
  day : Int
  part : Int
  year : Int
  lang : String
  model : String
  modelAPI : String
  session : String
deriving DecidableEq, Repr

/-- The extension table of `getFileExtension` in `src/main.go`
(association list standing in for the Go map literal, in source order). -/
def extensions : List (String × String) :=
  [("go", "go"),
   ("python", "py"),
   ("javascript", "js"),
   ("java", "java"),
   ("scala", "scala"),
   ("kotlin", "kt"),
   ("groovy", "groovy"),
   ("clojure", "clj"),
   ("csharp", "cs"),
   ("fsharp", "fs"),
   ("swift", "swift"),
   ("objectivec", "m"),
   ("r", "r"),
   ("haskell", "hs"),
   ("ocaml", "ml"),
   ("racket", "rkt"),
   ("scheme", "scm"),
   ("ruby", "rb"),
   ("erlang", "erl"),
   ("elixir", "ex"),
   ("rust", "rs"),
   ("c", "c"),
   ("cpp", "cpp"),
   ("zig", "zig"),
   ("fortran90", "f90"),
   ("perl", "pl"),
   ("pascal", "pas"),
   ("crystal", "cr"),
   ("julia", "jl"),
   ("lua", "lua"),
   ("php", "php"),
   ("dart", "dart"),
   ("bash", "sh"),
   ("awk", "awk"),
   ("nim", "nim"),
   ("d", "d"),
   ("v", "v"),
   ("prolog", "pl"),
   ("tcl", "tcl"),
   ("coffeescript", "coffee"),
   ("typescript", "ts")]

/-- `getFileExtension` from `src/main.go`: map a language identifier to a
file extension, or return the "unsupported language" error. -/
def getFileExtension (lang : String) : Except String String :=
  match extensions.lookup lang with
  | some ext => .ok ext
  | none => .error ("unsupported language: " ++ lang)

/-- The language switch of `evaluateSolution` in `src/main.go`, as a
table: language identifier to (executable, arguments). A `none` result
is the `default` branch ("unsupported language for execution"). -/
def execRecipes (solutionPath : String) : List (String × (String × List String)) :=
  [("python", ("python", [solutionPath])),
   ("javascript", ("node", [solutionPath])),
   ("ruby", ("ruby", [solutionPath])),
   ("go", ("go", ["run", solutionPath])),
   ("java", ("java", [solutionPath])),
   ("elixir", ("elixir", [solutionPath]))]

/-- Resolve the execution command for a language, mirroring the `switch
lang` in `evaluateSolution` (`src/main.go`). -/
def commandFor (lang solutionPath : String) : Option (String × List String) :=
  (execRecipes solutionPath).lookup lang

/-- The language identifiers carrying an execution recipe (the cases of
the `switch lang` in `evaluateSolution`, `src/main.go`). -/
def execLangs : List String :=
  ["python", "javascript", "ruby", "go", "java", "elixir"]

/-- Observations the Go code makes after `cmd.Run()` on the spawned
child process: `runErr` is whether `Run` returned a non-nil error,
`errMsg` its `Error()` text, `deadlineExceeded` is whether
`ctx.Err() == context.DeadlineExceeded`, and `stdout`/`stderr` the
contents of the two capture buffers `outBuf`/`errBuf`. -/
structure RunResult where
  runErr : Bool
  errMsg : String
  deadlineExceeded : Bool
  stdout : String
  stderr : String
deriving DecidableEq, Repr

/-- The error outcomes `evaluateSolution` (`src/main.go`) can return:
the `default` branch of the language switch, the deadline-exceeded
branch, and the execution-failure branch (carrying the formatted
message). -/
inductive EvalError where
  | unsupportedLanguage (lang : String)
  | timeout (timeoutMs : Nat)
  | executionFailed (msg : String)
deriving DecidableEq, Repr

/-- The formatted execution-failure message of `src/main.go`:
`fmt.Errorf("execution failed: %v\nStderr: %s", err, errBuf.String())`. -/
def execFailMessage (errMsg stderrText : String) : String :=
  "execution failed: " ++ errMsg ++ "\nStderr: " ++ stderrText

/-- Render an `EvalError` the way `fmt.Errorf`/`%v` surfaces it (the
Go duration formatting of the timeout message is abstracted to
milliseconds). -/
def EvalError.message : EvalError → String
  | .unsupportedLanguage lang => "unsupported language for execution: " ++ lang
  | .timeout timeoutMs => "execution timed out after " ++ toString timeoutMs ++ "ms"
  | .executionFailed msg => msg

/-- The ASCII-art pattern catalogue of `validSolution` (`src/main.go`),
in source order. -/
def asciiPatterns : List String :=
  [".##..####.###..#..#.###..####.###....##.###...###.",
   " ##  #### ###  #  # ###  #### ###    ## ###   ### ",
   "#....#..#....#.....###..######....##....#....#....##....######",
   "#    #  #    #     ###  ######    ##    #    #    ##    ######",
   "####.###..####.#..#.###..\n#....#..#....#.#..#.#..#.",
   "#### ###  #### #  # ###  \n#    #  #    # #  # #  # ",
   "..#....###....##.#..#.####.#..#.#....#..#.\n",
   " #    ###    ## #  # #### #  # #    #  # \n",
   " █    ███    ██ █  █ ████ █  █ █    █  █ \n",
   "#..#.#..#.#..#.#..#.#..#.#..#.#..#....#",
   "#  # #  # #  # #  # #  # #  # #  #    #",
   "###..###..###...##..###...##...##..####.",
   "###  ###  ###   ##  ###   ##   ##  #### "]

/-- The `for _, pattern := range asciiPatterns` loop of `validSolution`:
return `true` at the first catalogued pattern contained in `result`. -/
def checkPatterns (result : String) : List String → Bool
  | [] => false
  | p :: ps => if stringsContains result p then true else checkPatterns result ps

/-- `validSolution` from `src/main.go`: primary substring rule, then the
ASCII-art catalogue, then the two scientific-notation spellings. -/
def validSolution (result answer : String) : Bool :=
  if stringsContains result answer then
    true
  else if checkPatterns result asciiPatterns then
    true
  else if stringsContains result "3.465154e+06" || stringsContains result "3.465154e+6" then
    true
  else
    false

/-- `evaluateSolution` from `src/main.go`, with the Judge abstracted to
a parameter `judge` so that independence of the outcome from the Judge
is expressible; the source instantiates `judge := validSolution`
(see `evaluateSolution` below). Process execution is abstracted into
`res : RunResult`. -/
def evaluateSolutionWith (judge : String → String → Bool) (challenge : Challenge)
    (solutionPath lang : String) (timeoutMs : Nat) (res : RunResult) :
    Bool × Option EvalError :=
  match commandFor lang solutionPath with
  | none => (false, some (.unsupportedLanguage lang))
  | some _cmd =>
    if res.runErr then
      if res.deadlineExceeded then
        (false, some (.timeout timeoutMs))
      else
        (false, some (.executionFailed (execFailMessage res.errMsg res.stderr)))
    else
      (judge res.stdout challenge.answer, none)

/-- `evaluateSolution` from `src/main.go`: returns the pair Go returns,
`(matched, error)`, with `none` standing for a nil error. -/
def evaluateSolution (challenge : Challenge) (solutionPath lang : String)
    (timeoutMs : Nat) (res : RunResult) : Bool × Option EvalError :=
  evaluateSolutionWith validSolution challenge solutionPath lang timeoutMs res

/-- `findChallenge` from `src/main.go`: first challenge whose name is
`day<d>_part<p>_<y>`. -/
def findChallenge (challenges : List Challenge) (flags : Flags) :
    Except String Challenge :=
  let name := "day" ++ toString flags.day ++ "_part" ++ toString flags.part
    ++ "_" ++ toString flags.year
  match challenges.find? (fun c => c.name == name) with
  | some c => .ok c
  | none => .error ("challenge not found: " ++ name)

/-- `runEvaluationCommand` from `src/main.go`, with the loaded
challenge file contents and the process observations passed in
(`loadChallenges` and the actual spawning are I/O). Returns the verdict
or the wrapped error message. -/
def runEvaluationCommand (challenges : List Challenge) (flags : Flags)
    (res : RunResult) : Except String Bool :=
  match findChallenge challenges flags with
  | .error e => .error ("error finding challenge: " ++ e)
  | .ok challenge =>
    match getFileExtension flags.lang with
    | .error e => .error ("error getting file extension: " ++ e)
    | .ok ext =>
      let solutionPath := "day" ++ toString flags.day ++ "_part"
        ++ toString flags.part ++ "_" ++ toString flags.year ++ "." ++ ext
      match evaluateSolution challenge solutionPath flags.lang 20000 res with
      | (_, some e) => .error ("error evaluating solution: " ++ e.message)
      | (correct, none) => .ok correct

/-- The `getCommand` switch of the older evaluator variant in
`src/unnamed/part_003` (same six languages and invocations). -/
def getCommand (lang filename : String) : Option (String × List String) :=
  (execRecipes filename).lookup lang

/-- Observations the `src/unnamed/part_003` variant makes of its child
process: whether `cmd.Start()` failed, whether the `time.After` timer
fired before `cmd.Wait()` delivered (and whether the `Kill` then
failed), the `Wait` error text (`none` for a clean exit), and `combined`
the contents of the single buffer `out` receiving both stdout and
stderr. -/
structure RunResultC where
  startErr : Bool
  timedOut : Bool
  killErr : Bool
  waitErrMsg : Option String
  combined : String
deriving DecidableEq, Repr

/-- `evaluateSolution` from `src/unnamed/part_003` (the older variant):
returns `(matched, output, error)`, with one buffer shared by stdout
and stderr and plain `strings.Contains` as the judge. -/
def evaluateSolutionCombined (challenge : Challenge) (filename lang : String)
    (res : RunResultC) : Bool × String × Option String :=
  match getCommand lang filename with
  | none => (false, "", some ("unsupported language: " ++ lang))
  | some _cmd =>
    if res.startErr then
      (false, "", some "failed to start command")
    else if res.timedOut then
      if res.killErr then
        (false, "", some "failed to kill process")
      else
        (false, "", some "process killed as timeout reached")
    else
      match res.waitErrMsg with
      | some m => (false, res.combined, some ("process finished with error: " ++ m))
      | none => (stringsContains res.combined challenge.answer, res.combined, none)

/-! ## Helper lemmas -/

theorem stringsContains_iff (s substr : String) :
    stringsContains s substr = true ↔ substr.data <:+: s.data :=
  decide_eq_true_iff

theorem mem_execLangs_commandFor {lang : String} (p : String)
    (h : lang ∈ execLangs) : ∃ c, commandFor lang p = some c := by
  fin_cases h <;> exact ⟨_, rfl⟩

theorem mem_execLangs_extension {lang : String} (h : lang ∈ execLangs) :
    (extensions.lookup lang).isSome = true := by
  fin_cases h <;> decide

theorem not_mem_execLangs_commandFor {lang : String} (p : String)
    (h : lang ∉ execLangs) : commandFor lang p = none := by
  have h1 : (lang == "python") = false := by
    refine beq_eq_false_iff_ne.mpr (fun e => h ?_)
    simp [execLangs, e]
  have h2 : (lang == "javascript") = false := by
    refine beq_eq_false_iff_ne.mpr (fun e => h ?_)
    simp [execLangs, e]
  have h3 : (lang == "ruby") = false := by
    refine beq_eq_false_iff_ne.mpr (fun e => h ?_)
    simp [execLangs, e]
  have h4 : (lang == "go") = false := by
    refine beq_eq_false_iff_ne.mpr (fun e => h ?_)
    simp [execLangs, e]
  have h5 : (lang == "java") = false := by
    refine beq_eq_false_iff_ne.mpr (fun e => h ?_)
    simp [execLangs, e]
  have h6 : (lang == "elixir") = false := by
    refine beq_eq_false_iff_ne.mpr (fun e => h ?_)
    simp [execLangs, e]
  simp [commandFor, execRecipes, List.lookup, h1, h2, h3, h4, h5, h6]

theorem checkPatterns_iff (result : String) (ps : List String) :
    checkPatterns result ps = true ↔ ∃ p ∈ ps, p.data <:+: result.data := by
  induction ps with
  | nil => simp [checkPatterns]
  | cons p ps ih =>
    by_cases hp : stringsContains result p = true
    · simp only [checkPatterns, hp, if_true, true_iff]
      exact ⟨p, List.mem_cons_self p ps, (stringsContains_iff result p).mp hp⟩
    · have hp' : stringsContains result p = false := by
        simpa using hp
      simp only [checkPatterns, hp', Bool.false_eq_true, if_false]
      rw [ih]
      constructor
      · rintro ⟨q, hq, hinf⟩
        exact ⟨q, List.mem_cons_of_mem p hq, hinf⟩
      · rintro ⟨q, hq, hinf⟩
        rcases List.mem_cons.mp hq with rfl | hq
        · exact absurd ((stringsContains_iff result q).mpr hinf)
            (by simp [hp])
        · exact ⟨q, hq, hinf⟩

/-! ## Claim theorems -/

/-- C1: when the timeout elapses before the child exits (`cmd.Run()`
errored and `ctx.Err() == context.DeadlineExceeded`), `evaluateSolution`
returns `matched = false` with the timeout error — a constructor
distinct from the execution error — for every judge function and every
partial output, so `validSolution` is never invoked on that output. -/
theorem evaluateSolution_timeout (judge : String → String → Bool)
    (challenge : Challenge) (solutionPath lang : String) (timeoutMs : Nat)
    (res : RunResult) (hlang : lang ∈ execLangs) (hrun : res.runErr = true)
    (hdl : res.deadlineExceeded = true) :
    evaluateSolutionWith judge challenge solutionPath lang timeoutMs res
      = (false, some (.timeout timeoutMs))
    ∧ ∀ m, EvalError.timeout timeoutMs ≠ EvalError.executionFailed m := by
  obtain ⟨c, hc⟩ := mem_execLangs_commandFor solutionPath hlang
  exact ⟨by simp [evaluateSolutionWith, hc, hrun, hdl],
    fun m h => EvalError.noConfusion h⟩

/-- Witness for C1 at a concrete timed-out python run. -/
theorem evaluateSolution_timeout_witness :
    evaluateSolution ⟨"day1_part1_2024", "", "", "", "", 2024, "42"⟩
      "day1_part1_2024.py" "python" 20000
      ⟨true, "signal: killed", true, "partial output", ""⟩
      = (false, some (.timeout 20000)) :=
  (evaluateSolution_timeout validSolution
    ⟨"day1_part1_2024", "", "", "", "", 2024, "42"⟩
    "day1_part1_2024.py" "python" 20000
    ⟨true, "signal: killed", true, "partial output", ""⟩
    (by decide) rfl rfl).1

/-- C2: when the child exits with a failing status before the timeout
(`cmd.Run()` errored, deadline not exceeded), `evaluateSolution` returns
`matched = false` with an execution error whose message contains the
captured stderr text; that error is never the timeout constructor, and
the outcome is the same for every judge function, so the Judge is not
invoked. -/
theorem evaluateSolution_execError (judge : String → String → Bool)
    (challenge : Challenge) (solutionPath lang : String) (timeoutMs : Nat)
    (res : RunResult) (hlang : lang ∈ execLangs) (hrun : res.runErr = true)
    (hdl : res.deadlineExceeded = false) :
    evaluateSolutionWith judge challenge solutionPath lang timeoutMs res
      = (false, some (.executionFailed (execFailMessage res.errMsg res.stderr)))
    ∧ res.stderr.data <:+: (execFailMessage res.errMsg res.stderr).data
    ∧ ∀ t, EvalError.executionFailed (execFailMessage res.errMsg res.stderr)
        ≠ EvalError.timeout t := by
  obtain ⟨c, hc⟩ := mem_execLangs_commandFor solutionPath hlang
  refine ⟨by simp [evaluateSolutionWith, hc, hrun, hdl], ?_,
    fun t h => EvalError.noConfusion h⟩
  have hdata : (execFailMessage res.errMsg res.stderr).data
      = ("execution failed: " ++ res.errMsg ++ "\nStderr: ").data
        ++ res.stderr.data := by
    simp [execFailMessage, String.data_append]
  rw [hdata]
  exact (List.suffix_append _ _).isInfix

/-- Witness for C2 at a concrete crashing ruby run. -/
theorem evaluateSolution_execError_witness :
    evaluateSolution ⟨"day2_part1_2023", "", "", "", "", 2023, "7"⟩
      "day2_part1_2023.rb" "ruby" 20000
      ⟨true, "exit status 1", false, "", "NameError: undefined"⟩
      = (false, some (.executionFailed
          (execFailMessage "exit status 1" "NameError: undefined"))) :=
  (evaluateSolution_execError validSolution
    ⟨"day2_part1_2023", "", "", "", "", 2023, "7"⟩
    "day2_part1_2023.rb" "ruby" 20000
    ⟨true, "exit status 1", false, "", "NameError: undefined"⟩
    (by decide) rfl rfl).1

/-- C3: the Judge returns `true` whenever the (non-empty) expected
answer appears as a contiguous substring of the raw output, whatever
text surrounds it. -/
theorem validSolution_substring (result answer : String)
    (_hne : answer ≠ "") (hsub : answer.data <:+: result.data) :
    validSolution result answer = true := by
  have h : stringsContains result answer = true :=
    (stringsContains_iff result answer).mpr hsub
  simp [validSolution, h]

/-- Witness for C3: a labelled output containing the expected answer. -/
theorem validSolution_substring_witness :
    validSolution "The answer is: 42" "42" = true :=
  validSolution_substring "The answer is: 42" "42" (by decide) (by decide)

/-- C4: if the primary substring rule fails but some catalogued
ASCII-art pattern occurs verbatim in the raw output, the Judge returns
`true`, for every expected-answer string. -/
theorem validSolution_asciiPattern (result answer : String)
    (hans : ¬ answer.data <:+: result.data)
    (hpat : ∃ p ∈ asciiPatterns, p.data <:+: result.data) :
    validSolution result answer = true := by
  have h1 : stringsContains result answer = false := decide_eq_false hans
  have h2 : checkPatterns result asciiPatterns = true :=
    (checkPatterns_iff result asciiPatterns).mpr hpat
  simp [validSolution, h1, h2]

/-- Witness for C4: an output that is exactly the first catalogued
pattern, with an unrelated expected answer. -/
theorem validSolution_asciiPattern_witness :
    validSolution ".##..####.###..#..#.###..####.###....##.###...###." "XYZ"
      = true :=
  validSolution_asciiPattern
    ".##..####.###..#..#.###..####.###....##.###...###." "XYZ"
    (by decide)
    ⟨".##..####.###..#..#.###..####.###....##.###...###.",
      by decide, by decide⟩

/-- C7: when neither the primary substring rule nor any catalogued
pattern matches, the Judge returns `true` exactly when the output
contains one of the two scientific-notation spellings; otherwise the
result is the normal boolean `false` (the Judge is a total function and
never raises an error). -/
theorem validSolution_sciNotation (result answer : String)
    (hans : ¬ answer.data <:+: result.data)
    (hpat : ∀ p ∈ asciiPatterns, ¬ p.data <:+: result.data) :
    validSolution result answer = true
      ↔ ("3.465154e+06".data <:+: result.data
          ∨ "3.465154e+6".data <:+: result.data) := by
  have h1 : stringsContains result answer = false := decide_eq_false hans
  have h2 : checkPatterns result asciiPatterns = false := by
    cases hcp : checkPatterns result asciiPatterns with
    | false => rfl
    | true =>
      obtain ⟨p, hp, hinf⟩ := (checkPatterns_iff result asciiPatterns).mp hcp
      exact absurd hinf (hpat p hp)
  have hval : validSolution result answer
      = (stringsContains result "3.465154e+06"
          || stringsContains result "3.465154e+6") := by
    simp only [validSolution, h1, h2, Bool.false_eq_true, if_false]
    cases stringsContains result "3.465154e+06"
      || stringsContains result "3.465154e+6" <;> rfl
  rw [hval, Bool.or_eq_true, stringsContains_iff, stringsContains_iff]

/-- Witness for C7: an output containing the second scientific-notation
spelling matches despite an unrelated expected answer. -/
theorem validSolution_sciNotation_witness :
    validSolution "result: 3.465154e+6" "12345" = true :=
  (validSolution_sciNotation "result: 3.465154e+6" "12345"
    (by decide) (by decide)).mpr (Or.inr (by decide))

/-- C10: the empty expected answer is a substring of every output, so
the Judge accepts every raw output when the expected answer is empty —
the code does not enforce non-emptiness. -/
theorem validSolution_emptyAnswer (result : String) :
    validSolution result "" = true := by
  have h : stringsContains result "" = true :=
    (stringsContains_iff result "").mpr List.nil_infix
  simp [validSolution, h]

/-- C5 counterexample: a clean python run of `evaluateSolution`
(`src/main.go`) whose stderr buffer holds exactly the expected answer
`"42"` while stdout does not, yet the result is `(false, none)` — the
Judge sees only the stdout buffer, so an answer written only to
standard error does not yield a match. -/
theorem evaluateSolution_stderr_only_cex :
    evaluateSolution ⟨"day1_part1_2024", "", "", "", "", 2024, "42"⟩
      "day1_part1_2024.py" "python" 20000
      ⟨false, "", false, "no output", "42"⟩
      = (false, none)
    ∧ ("42" : String).data <:+: ("42" : String).data := by
  exact ⟨by decide, List.infix_rfl⟩

/-- C5 amended: in `src/main.go`'s `evaluateSolution` a clean run hands
only the captured stdout buffer to the Judge, so an answer written only
to stderr yields `matched = false`; in the older
`src/unnamed/part_003` variant stdout and stderr share one buffer and
that combined text is judged, so there a stderr-only answer does
match. -/
theorem evaluateSolution_clean_run (judge : String → String → Bool)
    (challenge : Challenge) (solutionPath lang : String) (timeoutMs : Nat)
    (res : RunResult) (hlang : lang ∈ execLangs) (hrun : res.runErr = false) :
    evaluateSolutionWith judge challenge solutionPath lang timeoutMs res
      = (judge res.stdout challenge.answer, none)
    ∧ ∀ (filename : String) (resC : RunResultC), resC.startErr = false →
        resC.timedOut = false → resC.waitErrMsg = none →
        evaluateSolutionCombined challenge filename lang resC
          = (stringsContains resC.combined challenge.answer,
              resC.combined, none) := by
  obtain ⟨c, hc⟩ := mem_execLangs_commandFor solutionPath hlang
  refine ⟨by simp [evaluateSolutionWith, hc, hrun], ?_⟩
  intro filename resC hstart htime hwait
  obtain ⟨c2, hc2⟩ := mem_execLangs_commandFor filename hlang
  have hg : getCommand lang filename = some c2 := hc2
  simp [evaluateSolutionCombined, hg, hstart, htime, hwait]

/-- Witness for the amended C5: the stdout-only judging of `src/main.go`
and the combined-buffer judging of the `part_003` variant, each at a
concrete clean run whose answer sits in stderr text only. -/
theorem evaluateSolution_clean_run_witness :
    evaluateSolution ⟨"day1_part1_2024", "", "", "", "", 2024, "42"⟩
      "day1_part1_2024.py" "python" 20000
      ⟨false, "", false, "no output", "42"⟩
      = (validSolution "no output" "42", none)
    ∧ evaluateSolutionCombined
        ⟨"day1_part1_2024", "", "", "", "", 2024, "42"⟩
        "day1_part1_2024.py" "python"
        ⟨false, false, false, none, "warning: 42"⟩
      = (stringsContains "warning: 42" "42", "warning: 42", none) :=
  ⟨(evaluateSolution_clean_run validSolution
      ⟨"day1_part1_2024", "", "", "", "", 2024, "42"⟩
      "day1_part1_2024.py" "python" 20000
      ⟨false, "", false, "no output", "42"⟩ (by decide) rfl).1,
   (evaluateSolution_clean_run validSolution
      ⟨"day1_part1_2024", "", "", "", "", 2024, "42"⟩
      "day1_part1_2024.py" "python" 20000
      ⟨false, "", false, "no output", "42"⟩ (by decide) rfl).2
     "day1_part1_2024.py" ⟨false, false, false, none, "warning: 42"⟩
     rfl rfl rfl⟩

/-- C6: a language identifier missing from the extensions table makes
`getFileExtension` return the explicit "unsupported language" error;
`runEvaluationCommand` then fails at that lookup (for every process
observation `res`, so no child process is consulted), and the language
switch of `evaluateSolutionWith` would likewise fail for every judge —
the Runner is never invoked. -/
theorem unsupported_language_fails_fast (challenges : List Challenge)
    (flags : Flags) (res : RunResult)
    (hreg : extensions.lookup flags.lang = none) :
    getFileExtension flags.lang
      = .error ("unsupported language: " ++ flags.lang)
    ∧ (∀ challenge, findChallenge challenges flags = .ok challenge →
        runEvaluationCommand challenges flags res
          = .error ("error getting file extension: "
              ++ ("unsupported language: " ++ flags.lang)))
    ∧ ∀ (judge : String → String → Bool) (challenge : Challenge)
        (solutionPath : String) (timeoutMs : Nat),
        evaluateSolutionWith judge challenge solutionPath flags.lang
          timeoutMs res
          = (false, some (.unsupportedLanguage flags.lang)) := by
  have hnotmem : flags.lang ∉ execLangs := by
    intro hmem
    have h := mem_execLangs_extension hmem
    rw [hreg] at h
    simp at h
  have hext : getFileExtension flags.lang
      = .error ("unsupported language: " ++ flags.lang) := by
    simp [getFileExtension, hreg]
  refine ⟨hext, ?_, ?_⟩
  · intro challenge hfind
    simp [runEvaluationCommand, hfind, hext]
  · intro judge challenge solutionPath timeoutMs
    simp [evaluateSolutionWith,
      not_mem_execLangs_commandFor solutionPath hnotmem]

/-- Witness for C6 at the unsupported identifier "cobol". -/
theorem unsupported_language_fails_fast_witness :
    runEvaluationCommand [⟨"day1_part1_2024", "", "", "", "", 2024, "42"⟩]
      ⟨1, 1, 2024, "cobol", "", "", ""⟩ ⟨false, "", false, "", ""⟩
      = .error ("error getting file extension: "
          ++ ("unsupported language: " ++ "cobol")) :=
  (unsupported_language_fails_fast
    [⟨"day1_part1_2024", "", "", "", "", 2024, "42"⟩]
    ⟨1, 1, 2024, "cobol", "", "", ""⟩ ⟨false, "", false, "", ""⟩
    (by decide)).2.1
    ⟨"day1_part1_2024", "", "", "", "", 2024, "42"⟩ rfl

/-- C8: the keys of the execution-recipe switch are exactly
`execLangs`, every one of them has a file extension (via
`getFileExtension`), and the reverse inclusion fails — "rust" has an
extension but no execution recipe. -/
theorem execRecipes_subset_extensions :
    (∀ p, (execRecipes p).map Prod.fst = execLangs)
    ∧ (execLangs.all fun lang =>
        match getFileExtension lang with
        | .ok _ => true
        | .error _ => false) = true
    ∧ (match getFileExtension "rust" with
        | .ok _ => true
        | .error _ => false) = true
    ∧ execLangs.contains "rust" = false := by
  exact ⟨fun p => rfl, by decide, by decide, by decide⟩
